import Mathlib

/-!
# Verification of the EDA pipeline (`src/eda/generate_eda_report1.py`)

A shallow embedding of the column-type inference and report-orchestration
pipeline of the repository's CLI script, together with theorems settling the
specification's claims about it.

Modelling conventions:
* A pandas `DataFrame` is a `Table`: a list of named, dtype-tagged columns,
  each holding a list of cell `Value`s (`vNull` stands for `NaN`/`None`).
* The Python float products `0.7 * len(df)` and `0.9 * len(df)` are
  embedded with their exact IEEE-754 binary64 semantics (`round53` below):
  the int-vs-float comparison `sum > 0.7 * len(df)` is exact in Python, and
  the product is one correct rounding of `fl(0.7) * n`, so e.g. at 90 rows
  the threshold is `62.99999999999999…` and a column with exactly 63
  matches (70%) *is* reclassified.  The `MISSING_THRESHOLD = 0.3`
  comparison of the singly-rounded fraction `k/n` against `fl(0.3)` agrees
  with the exact comparison `k/n > 3/10` for every feasible table, and is
  embedded exactly.
* Fallible library calls (`pd.to_datetime`) are embedded with `Option`.
-/

namespace Eda

/-- Pandas dtypes that can occur in this pipeline: `int64`/`float64` from
numeric inference, `bool` for boolean columns, `object` for strings,
`category`, and `datetime64` after date conversion. -/
inductive Dtype where
  | int64
  | float64
  | bool
  | object
  | category
  | datetime64
deriving DecidableEq, Repr

/-- A cell value. `vNull` models `NaN`/`NaT`/`None`. -/
inductive Value where
  | vInt : Int → Value
  | vFloat : ℚ → Value
  | vBool : Bool → Value
  | vStr : String → Value
  | vDate : Nat → Nat → Nat → Value
  | vNull : Value
deriving DecidableEq, Repr

/-- A named column with its dtype tag and cells. -/
structure Column where
  name : String
  dtype : Dtype
  vals : List Value
deriving DecidableEq, Repr

/-- A loaded table: ordered list of columns (`df.columns` order). -/
abbrev Table := List Column

/-- `len(df)`: the number of rows, i.e. the length of the shared index.
For a well-formed table every column has this length; we read it off the
first column. -/
def tlen : Table → Nat
  | [] => 0
  | c :: _ => c.vals.length

/-- All columns of a table have the same number of cells (pandas enforces
this for every `DataFrame`). -/
def Wf (df : Table) : Prop := ∀ c ∈ df, c.vals.length = tlen df

/-- `df[col]`: first column with the given name. -/
def findCol (df : Table) (nm : String) : Option Column :=
  df.find? (fun c => c.name == nm)

/-- `pd.isnull` on a cell. -/
def isNullV : Value → Bool
  | .vNull => true
  | _ => false

/-- Number of non-null cells of a column. -/
def nonNullCount (vals : List Value) : Nat :=
  vals.countP (fun v => !isNullV v)

/-! ## Smart conversion (`smart_convert_columns`, source lines 53-60) -/

/-- `re.match(r"\d{4}-\d{2}-\d{2}", s)` on a list of characters: the string
starts with four digits, a dash, two digits, a dash, two digits (anything may
follow; `Series.str.match` anchors at the start only). -/
def isoMatchL : List Char → Bool
  | a :: b :: c :: d :: '-' :: e :: f :: '-' :: g :: h :: _ =>
    [a, b, c, d, e, f, g, h].all Char.isDigit
  | _ => false

/-- `Series.str.match(r"\d{4}-\d{2}-\d{2}")` on one string. -/
def isoMatch (s : String) : Bool := isoMatchL s.toList

/-- The string is exactly `YYYY-MM-DD` (ten characters). -/
def isoShaped (s : String) : Bool :=
  match s.toList with
  | [a, b, c, d, '-', e, f, '-', g, h] => [a, b, c, d, e, f, g, h].all Char.isDigit
  | _ => false

/-- `re.match(r"^\d+$", s)`: non-empty and all digits. -/
def isDigitStr (s : String) : Bool :=
  !s.toList.isEmpty && s.toList.all Char.isDigit

/-- Does a cell count towards `df[col].str.match(r"\d{4}-\d{2}-\d{2}").sum()`?
Null cells give `NaN` under `.str.match` and are skipped by `.sum()`. -/
def isoMatchV : Value → Bool
  | .vStr s => isoMatch s
  | _ => false

/-- `df[col].str.match(r"\d{4}-\d{2}-\d{2}").sum()`. -/
def isoMatchCount (vals : List Value) : Nat := vals.countP isoMatchV

/-- Cell counted by `df[col].str.match(r"^\d+$").sum()`. -/
def digitStrV : Value → Bool
  | .vStr s => isDigitStr s
  | _ => false

/-- `df[col].str.match(r"^\d+$").sum()`. -/
def digitCount (vals : List Value) : Nat := vals.countP digitStrV

/-- Gregorian leap year. -/
def isLeap (y : Nat) : Bool := (y % 4 == 0 && y % 100 != 0) || y % 400 == 0

/-- Days in a month. -/
def daysInMonth (y m : Nat) : Nat :=
  match m with
  | 2 => if isLeap y then 29 else 28
  | 4 => 30
  | 6 => 30
  | 9 => 30
  | 11 => 30
  | _ => 31

/-- `(y1, m1, d1) ≤ (y2, m2, d2)` as calendar dates. -/
def dateLe (y1 m1 d1 y2 m2 d2 : Nat) : Bool :=
  Nat.blt y1 y2 || (y1 == y2 && (Nat.blt m1 m2 || (m1 == m2 && Nat.ble d1 d2)))

/-- The date is representable as a pandas nanosecond `Timestamp`
(`Timestamp.min` = 1677-09-21 00:12, `Timestamp.max` = 2262-04-11 23:47;
whole dates from 1677-09-22 through 2262-04-11). -/
def inTimestampRange (y m d : Nat) : Bool :=
  dateLe 1677 9 22 y m d && dateLe y m d 2262 4 11

/-- Digit character to its value. -/
def c2d (c : Char) : Nat := c.toNat - 48

/-- `pd.to_datetime` on a single `YYYY-MM-DD`-shaped string: succeeds exactly
when the three fields form a valid calendar date inside the `Timestamp`
range.  Strings of any other shape are not parsed by this model; the
theorems that use it restrict columns to `YYYY-MM-DD`-shaped cells, where it
is faithful to pandas. -/
def parse_iso_date (s : String) : Option Value :=
  match s.toList with
  | [a, b, c, d, '-', e, f, '-', g, h] =>
    if [a, b, c, d, e, f, g, h].all Char.isDigit then
      let y := c2d a * 1000 + c2d b * 100 + c2d c * 10 + c2d d
      let m := c2d e * 10 + c2d f
      let day := c2d g * 10 + c2d h
      if Nat.ble 1 m && Nat.ble m 12 && Nat.ble 1 day &&
          Nat.ble day (daysInMonth y m) && inTimestampRange y m day then
        some (Value.vDate y m day)
      else none
    else none
  | _ => none

/-- `pd.to_datetime(df[col], errors='ignore')` on an object column: nulls
become `NaT`; if every non-null cell parses the whole column is converted,
and if any cell fails to parse the *input is returned unchanged* (that is
what `errors='ignore'` does — it does not null out the failing cells). -/
def to_datetime_ignore (vals : List Value) : Option (List Value) :=
  vals.mapM fun v =>
    match v with
    | .vNull => some Value.vNull
    | .vStr s => parse_iso_date s
    | _ => none

/-- `str(x)` as applied by `Series.astype(str)`; note `NaN` becomes the
literal string `"nan"`. -/
def astype_str (v : Value) : Value :=
  match v with
  | .vStr s => .vStr s
  | .vNull => .vStr "nan"
  | .vInt i => .vStr (toString i)
  | .vBool b => .vStr (if b then "True" else "False")
  | .vFloat q => .vStr (toString q)
  | .vDate y m d => .vStr (toString y ++ "-" ++ toString m ++ "-" ++ toString d)

/-- Number of binary digits of `n`, with `fuel ≥ n` divisions available
(written with explicit fuel so that it evaluates by kernel reduction). -/
def bitLenAux : Nat → Nat → Nat
  | 0, _ => 0
  | fuel + 1, n => if n = 0 then 0 else bitLenAux fuel (n / 2) + 1

/-- Number of binary digits of `n` (`n.bit_length()` in Python). -/
def bitLen (n : Nat) : Nat := bitLenAux n n

/-- Round a natural number to 53 significant bits, ties to even: the
rounding step of an IEEE-754 binary64 operation whose exact result is
`a / 2^53`.  (No overflow handling: the exponent range is only exceeded for
`a ≥ 2^1024`, far beyond any `len(df)` a process can hold.) -/
def round53 (a : Nat) : Nat :=
  if a < 2 ^ 53 then a
  else
    let shift := bitLen a - 53
    let q := a / 2 ^ shift
    let r := a % 2 ^ shift
    let half := 2 ^ (shift - 1)
    if half < r ∨ (r = half ∧ q % 2 = 1) then (q + 1) * 2 ^ shift
    else q * 2 ^ shift

/-- The 53-bit significand (scaled by `2^53`) of the binary64 double
nearest 0.7, i.e. `0x1.6666666666666p-1`: `float(0.7) = fl07 / 2^53`. -/
def fl07 : Nat := 6305039478318694

/-- The 53-bit significand (scaled by `2^53`) of the binary64 double
nearest 0.9, i.e. `0x1.ccccccccccccdp-1`: `float(0.9) = fl09 / 2^53`. -/
def fl09 : Nat := 8106479329266893

/-- The Python comparison `sum > t * len(df)` where `t` is the float with
value `c / 2^53` and `sum`, `n` are integers: `n` converts to binary64
exactly (`n < 2^53` for any real table), the product is one correct
rounding of `c * n / 2^53`, and Python compares an int to a float exactly —
so the whole test is `round53 (c * n) < sum * 2^53`. -/
def pyThresholdLt (c n sum : Nat) : Bool :=
  Nat.blt (round53 (c * n)) (sum * 2 ^ 53)

/-- The per-column body of `smart_convert_columns` (source lines 54-59);
`n` is `len(df)`.  The float threshold tests `sum > 0.7 * len(df)` and
`sum > 0.9 * len(df)` are embedded bit-exactly via `pyThresholdLt`. -/
def smart_convert_col (n : Nat) (c : Column) : Column :=
  if c.dtype = Dtype.object then
    if pyThresholdLt fl07 n (isoMatchCount c.vals) then
      match to_datetime_ignore c.vals with
      | some vals => ⟨c.name, Dtype.datetime64, vals⟩
      | none => c
    else if pyThresholdLt fl09 n (digitCount c.vals) then
      ⟨c.name, Dtype.object, c.vals.map astype_str⟩
    else c
  else c

/-- `smart_convert_columns(df)` (source lines 53-60). -/
def smart_convert_columns (df : Table) : Table :=
  df.map (smart_convert_col (tlen df))

/-! ## Column type summary (`summarize_column_types`, source lines 63-68) -/

/-- dtype selected by `select_dtypes(include=['int64', 'float64'])`. -/
def isNumDtype : Dtype → Bool
  | .int64 => true
  | .float64 => true
  | _ => false

/-- dtype selected by `select_dtypes(include=['object', 'category'])`. -/
def isCatDtype : Dtype → Bool
  | .object => true
  | .category => true
  | _ => false

/-- dtype selected by `select_dtypes(include=['datetime64'])`. -/
def isDateDtype : Dtype → Bool
  | .datetime64 => true
  | _ => false

/-- Sum of `len(s)` over the string cells (`Series.str.len()` gives `NaN` on
nulls, which `.mean()` skips). -/
def strLenSum : List Value → Nat
  | [] => 0
  | .vStr s :: rest => s.length + strLenSum rest
  | _ :: rest => strLenSum rest

/-- Number of string cells. -/
def strCount (vals : List Value) : Nat :=
  vals.countP (fun v => match v with | .vStr _ => true | _ => false)

/-- `df[col].str.len().mean() > 40`: with `strCount > 0` string cells,
`sum/count > 40` is exactly `sum > 40 * count`; the mean of an all-null
column is `NaN` and `NaN > 40` is false, embedded as the `strCount = 0`
case. -/
def meanStrLenGt40 (c : Column) : Bool :=
  !(strCount c.vals == 0) && Nat.blt (40 * strCount c.vals) (strLenSum c.vals)

/-- The four name lists returned by `summarize_column_types`. -/
structure ColumnTypes where
  num : List String
  cat : List String
  text : List String
  date : List String
deriving DecidableEq, Repr

/-- `summarize_column_types(df)` (source lines 63-68): `num`/`cat`/`date` by
dtype selection, `text` carved out of `cat` by mean string length. -/
def summarize_column_types (df : Table) : ColumnTypes :=
  let num_cols := (df.filter (fun c => isNumDtype c.dtype)).map Column.name
  let cat_cols := (df.filter (fun c => isCatDtype c.dtype)).map Column.name
  let date_cols := (df.filter (fun c => isDateDtype c.dtype)).map Column.name
  let text_cols := cat_cols.filter (fun nm =>
    match findCol df nm with
    | some c => meanStrLenGt40 c
    | none => false)
  ⟨num_cols, cat_cols, text_cols, date_cols⟩

/-! ## Missing values (`check_missing_values`, source lines 83-89) -/

/-- Per-column null fraction, `df.isnull().mean()[col]`. -/
def missingFrac (c : Column) : ℚ :=
  (c.vals.countP isNullV : ℚ) / (c.vals.length : ℚ)

/-- `df.isnull().mean()` as a name-fraction list in column order. -/
def missing_fractions (df : Table) : List (String × ℚ) :=
  df.map (fun c => (c.name, missingFrac c))

/-- Descending order on the fraction component, the order
`sort_values(ascending=False)` produces. -/
def descByFrac (a b : String × ℚ) : Prop := b.2 ≤ a.2

instance : DecidableRel descByFrac :=
  fun a b => inferInstanceAs (Decidable (b.2 ≤ a.2))

instance : IsTotal (String × ℚ) descByFrac :=
  ⟨fun a b => le_total b.2 a.2⟩

instance : IsTrans (String × ℚ) descByFrac :=
  ⟨fun _ _ _ h1 h2 => le_trans h2 h1⟩

/-- `check_missing_values(df)`: sort the fractions descending
(`sort_values(ascending=False)`) and keep those strictly above
`MISSING_THRESHOLD = 0.3`.  Returns the reported (column, fraction) list. -/
def check_missing_values (df : Table) : List (String × ℚ) :=
  (List.insertionSort descByFrac (missing_fractions df)).filter
    (fun p => decide ((3 : ℚ) / 10 < p.2))

/-- The audit step as it sits in the pipeline: it produces the report and
hands the table on.  The source function only reads `df.isnull()` and
prints; it contains no assignment to `df`. -/
def check_missing_values_step (df : Table) : Table × List (String × ℚ) :=
  (df, check_missing_values df)

/-! ## Visuals (`generate_correlation_heatmap`, `plot_categorical_distributions`,
source lines 111-130) -/

/-- `df.select_dtypes(include=['int64', 'float64'])`; the sub-frame keeps the
full row index of `df`. -/
def num_df (df : Table) : Table := df.filter (fun c => isNumDtype c.dtype)

/-- `generate_correlation_heatmap` returns whether the heatmap file is
written.  The guard is `num_df.empty`, and pandas `DataFrame.empty` is true
when *any* axis has length 0: no numeric columns, or no rows. -/
def generate_correlation_heatmap (df : Table) : Bool :=
  !(num_df df).isEmpty && !(tlen df == 0)

/-- `df[col].nunique()`: distinct non-null values (pandas drops nulls). -/
def nunique (c : Column) : Nat :=
  ((c.vals.filter (fun v => !isNullV v)).dedup).length

/-- `plot_categorical_distributions(df, cat_cols, ...)`: one bar-chart file
per column of `cat_cols` with `nunique() <= 20`; returns the names of the
columns whose chart file is written. -/
def plot_categorical_distributions (df : Table) (cat_cols : List String) :
    List String :=
  cat_cols.filter (fun nm =>
    match findCol df nm with
    | some c => nunique c ≤ 20
    | none => false)

/-! ## Delimiter detection (`detect_delimiter`, source lines 23-31)

`detect_delimiter` reads a sample prefix of the file and calls
`csv.Sniffer().sniff(sample)`, returning `','` on `csv.Error`.  For samples
that contain no quote character (`"` or `'`) — the only case the claims
exercise — `sniff` falls through to `Sniffer._guess_delimiter`, which is
embedded below from the CPython `csv.py` source.  Its float consistency
sweep is embedded with exact integer arithmetic (`100 * count ≥ c * total`
for `count/total ≥ c/100`); for the line counts a 2048-byte sample can
hold, the float comparisons agree with the exact ones (see `sweep`). -/

/-- A character's adjusted mode: `(freq, adjusted line count)` from
`Sniffer._guess_delimiter`'s `modes[char]`. -/
structure ModeE where
  ch : Char
  freq : Nat
  count : Int
deriving DecidableEq, Repr

/-- The 7-bit ASCII candidate characters (`[chr(c) for c in range(127)]`). -/
def asciiChars : List Char := (List.range 127).map Char.ofNat

/-- Distinct values of a list in order of first occurrence (the key order of
the Python `metaFrequency` dict). -/
def firstOccurrences : List Nat → List Nat
  | [] => []
  | f :: rest => f :: (firstOccurrences rest).filter (fun x => !(x == f))

/-- `charFrequency[char]` as an association list `(freq, #lines with that
freq)` in first-occurrence order. -/
def tally (l : List Nat) : List (Nat × Nat) :=
  (firstOccurrences l).map (fun f => (f, l.count f))

/-- `modes[char]`: mode of the per-line frequencies of `ch` over the lines
`seen`, adjusted by subtracting the other frequencies' line counts
(`2 * count - #lines`); `none` when the character never occurs.  Python's
`max` keeps the first maximal item, hence the strict comparison in the
fold. -/
def modeOf (seen : List (List Char)) (ch : Char) : Option ModeE :=
  match tally (seen.map (fun l => l.count ch)) with
  | [] => none
  | [(0, _)] => none
  | [(f, c)] => some ⟨ch, f, (c : Int)⟩
  | x :: rest =>
    let m := rest.foldl (fun best y => if best.2 < y.2 then y else best) x
    some ⟨ch, m.1, 2 * (m.2 : Int) - (seen.length : Int)⟩

/-- `modes` over all ASCII candidates, in ASCII order (the iteration order of
`charFrequency.keys()`). -/
def modesFor (seen : List (List Char)) : List ModeE :=
  asciiChars.filterMap (modeOf seen)

/-- Does `modes[char]` qualify as a delimiter at consistency `c100 / 100`
(`v[0] > 0 and v[1] > 0 and v[1]/total >= consistency`)? -/
def qualifies (total : Nat) (c100 : Nat) (m : ModeE) : Bool :=
  decide (0 < m.freq) && decide (0 < m.count) &&
    decide ((c100 : Int) * (total : Int) ≤ 100 * m.count)

/-- The consistency sweep `while len(delims) == 0 and consistency >= 0.9:`.
In floats, `consistency` takes the ten values `1.0, 0.99, ..., 0.9099…`
before dropping below the 0.9 threshold — the tenth decrement yields
`0.8999…`, so the level 0.90 itself is never tested.  Embedded as ten exact
levels `100/100 … 91/100` (`s` counts the levels left; the float drift of
at most `1e-15` cannot change any comparison against the ratios `k/total`
a 2048-byte sample can produce), keeping the candidates of the first level
at which any qualify. -/
def sweep (modes : List ModeE) (total : Nat) : Nat → List ModeE
  | 0 => []
  | s + 1 =>
    let cur := modes.filter (qualifies total (90 + (s + 1)))
    if cur.isEmpty then sweep modes total s else cur

/-- `Sniffer.preferred`. -/
def preferredDelims : List Char := [',', '\t', ';', ' ', ':']

/-- `items = [(v,k) for (k,v) in delims.items()]; items.sort(); items[-1][1]`:
the lexicographic maximum by `((freq, count), char)`. -/
def maxDelim (x : ModeE) (rest : List ModeE) : Char :=
  (rest.foldl
    (fun best y =>
      if best.freq < y.freq ∨
          (best.freq = y.freq ∧
            (best.count < y.count ∨ (best.count = y.count ∧ best.ch < y.ch)))
      then y else best)
    x).ch

/-- The code after `_guess_delimiter`'s chunk loop: no candidate → no
delimiter (so `sniff` raises `csv.Error`); several candidates → the first of
the preferred list among them, else the dominating one. -/
def guessFinish (delims : List ModeE) : Option Char :=
  match delims with
  | [] => none
  | [m] => some m.ch
  | x :: rest =>
    match preferredDelims.find? (fun p => delims.any (fun m => m.ch == p)) with
    | some p => some p
    | none => some (maxDelim x rest)

/-- The chunk loop of `_guess_delimiter`: statistics are accumulated over
`data[0:start+chunk]`, the sweep only runs while `delims` is still empty,
and a unique candidate returns immediately.  `fuel` bounds the number of
chunks (callers pass `data.length + 1`, which is always enough since each
step advances `start` by `chunk ≥ 1`). -/
def guessLoop (data : List (List Char)) (chunk : Nat) :
    Nat → Nat → List ModeE → Option Char
  | 0, _, delims => guessFinish delims
  | fuel + 1, start, delims =>
    if start < data.length then
      let seen := data.take (start + chunk)
      let total := min (start + chunk) data.length
      let delims' := if delims.isEmpty then sweep (modesFor seen) total 10 else delims
      match delims' with
      | [m] => some m.ch
      | _ => guessLoop data chunk fuel (start + chunk) delims'
    else guessFinish delims

/-- `s.split('\n')` on the character list: split at every newline, keeping
empty parts (a split on `k` newlines has `k + 1` parts). -/
def splitNl : List Char → List (List Char)
  | [] => [[]]
  | '\n' :: rest => [] :: splitNl rest
  | c :: rest =>
    match splitNl rest with
    | [] => [[c]]
    | h :: t => (c :: h) :: t

/-- `data = list(filter(None, sample.split('\n')))`. -/
def sampleLines (sample : String) : List (List Char) :=
  (splitNl sample.toList).filter (fun l => !l.isEmpty)

/-- The lines the first chunk analyzes (`chunkLength = min(10, len(data))`). -/
def firstChunk (sample : String) : List (List Char) :=
  (sampleLines sample).take (min 10 (sampleLines sample).length)

/-- `Sniffer._guess_delimiter(sample)` restricted to the delimiter result. -/
def guess_delimiter (sample : String) : Option Char :=
  let data := sampleLines sample
  guessLoop data (min 10 data.length) (data.length + 1) 0 []

/-- The sample contains no quote character, so `sniff` cannot take the
quote-based guess (`_guess_quote_and_delimiter` requires a `"` or `'`). -/
def noQuoteChars (sample : String) : Bool :=
  sample.toList.all (fun ch => !(ch == '"') && !(ch == '\''))

/-- `detect_delimiter` (source lines 23-31) for quote-free samples:
`sniff` falls through to `_guess_delimiter`, and a `csv.Error` (no
determinable delimiter) yields the `','` fallback. -/
def detect_delimiter (sample : String) : Char :=
  match guess_delimiter sample with
  | some d => d
  | none => ','

/-- From the spec's words: the sample "uses delimiter `d` consistently
across all sample lines" — every (non-empty) line contains the same positive
number of occurrences of `d`. -/
def usesConsistently (sample : String) (d : Char) : Bool :=
  match sampleLines sample with
  | [] => false
  | l :: rest =>
    decide (0 < l.count d) && rest.all (fun l2 => l2.count d == l.count d)

/-! ## Orchestration (`load_dataset`, `run_eda`, source lines 34-42 and
133-158) -/

/-- The downstream steps `run_eda` can perform after a successful load. -/
inductive Step where
  | classify
  | audit
  | profile
  | sweetviz
  | sample
  | heatmap
  | barCharts
deriving DecidableEq, Repr

/-- The CLI flags `--skip-profile`, `--skip-sweetviz`, `--skip-sample`. -/
structure Args where
  skip_profile : Bool
  skip_sweetviz : Bool
  skip_sample : Bool
deriving DecidableEq, Repr

/-- What one `run_eda` call did: whether the timestamped output directory
was created, and which downstream steps ran. -/
structure RunResult where
  dirCreated : Bool
  steps : List Step
deriving DecidableEq, Repr

/-- `load_dataset` (source lines 34-42): the `try` body reads the file into
a frame; any exception is caught and `None` is returned.  The outcome of
the delimiter detection plus `pd.read_csv` is the `Except` argument. -/
def load_dataset (readResult : Except String Table) : Option Table :=
  match readResult with
  | .ok df => some df
  | .error _ => none

/-- `run_eda` (source lines 133-158): load, return immediately on `None`;
otherwise convert, create the output directory, classify, audit, run the
optional report stages per flags, then heatmap and bar charts. -/
def run_eda (readResult : Except String Table) (a : Args) : RunResult :=
  match load_dataset readResult with
  | none => ⟨false, []⟩
  | some _df =>
    ⟨true,
      [Step.classify, Step.audit] ++
        (if a.skip_profile then [] else [Step.profile]) ++
        (if a.skip_sweetviz then [] else [Step.sweetviz]) ++
        (if a.skip_sample then [] else [Step.sample]) ++
        [Step.heatmap, Step.barCharts]⟩

/-! ## Helper lemmas -/

/-- A member of a table with `Nodup` names is found by `findCol` under its
own name. -/
lemma findCol_eq_some {df : Table} {c : Column} (hc : c ∈ df)
    (hnd : (df.map Column.name).Nodup) : findCol df c.name = some c := by
  induction df with
  | nil => exact absurd hc (List.not_mem_nil c)
  | cons d rest ih =>
    rw [List.map_cons, List.nodup_cons] at hnd
    rcases List.mem_cons.mp hc with rfl | hmem
    · exact List.find?_cons_of_pos _ (by simp)
    · by_cases h : d.name = c.name
      · exact absurd (h ▸ List.mem_map_of_mem Column.name hmem) hnd.1
      · rw [findCol, List.find?_cons_of_neg _ (by simp [h])]
        exact ih hmem hnd.2

/-- Under `Nodup` names, a column's name appears in a filtered name list
exactly when the column passes the filter. -/
lemma name_mem_filter_map {df : Table} (p : Column → Bool) {c : Column}
    (hc : c ∈ df) (hnd : (df.map Column.name).Nodup) :
    (c.name ∈ (df.filter p).map Column.name) ↔ p c = true := by
  constructor
  · intro h
    obtain ⟨c', hc', hn⟩ := List.mem_map.mp h
    obtain ⟨hmem, hp⟩ := List.mem_filter.mp hc'
    exact List.inj_on_of_nodup_map hnd hmem hc hn ▸ hp
  · intro hp
    exact List.mem_map_of_mem _ (List.mem_filter.mpr ⟨hc, hp⟩)

/-- `smart_convert_col` never renames a column. -/
lemma smart_convert_col_name (n : Nat) (c : Column) :
    (smart_convert_col n c).name = c.name := by
  unfold smart_convert_col
  repeat' split
  all_goals rfl

/-- `smart_convert_columns` preserves the header. -/
lemma smart_convert_columns_names (df : Table) :
    (smart_convert_columns df).map Column.name = df.map Column.name := by
  unfold smart_convert_columns
  rw [List.map_map]
  exact List.map_congr_left (fun c _ => smart_convert_col_name _ c)

/-- An object column is either left string-typed or becomes `datetime64`. -/
lemma smart_convert_col_dtype_object {n : Nat} {c : Column}
    (hobj : c.dtype = Dtype.object) :
    (smart_convert_col n c).dtype = Dtype.object ∨
      (smart_convert_col n c).dtype = Dtype.datetime64 := by
  unfold smart_convert_col
  rw [if_pos hobj]
  split
  · split
    · exact Or.inr rfl
    · exact Or.inl hobj
  · split
    · exact Or.inl rfl
    · exact Or.inl hobj

/-! ## Claims -/

/-- C9: running the missing-value audit leaves the table completely
unchanged — the audit step hands on exactly the table it was given, so every
column, cell and dtype is the same before and after. -/
theorem check_missing_values_preserves_table (df : Table) :
    (check_missing_values_step df).1 = df := rfl

/-- C6: when loading fails, the loader returns a no-table result and
`run_eda` performs none of the downstream steps: no classification, audit,
report or chart step runs, and the output directory is not created. -/
theorem run_eda_aborts_on_load_failure (msg : String) (a : Args) :
    load_dataset (Except.error msg) = none ∧
      run_eda (Except.error msg) a = ⟨false, []⟩ :=
  ⟨rfl, rfl⟩

/-- C10: the type-conversion pass inspects only object-dtype columns; a
column of any other dtype is returned unchanged (same values, same dtype)
and survives into the converted table. -/
theorem smart_convert_only_object (df : Table) (c : Column)
    (h : c.dtype ≠ Dtype.object) :
    smart_convert_col (tlen df) c = c ∧
      (c ∈ df → c ∈ smart_convert_columns df) := by
  have he : smart_convert_col (tlen df) c = c := by
    unfold smart_convert_col
    rw [if_neg h]
  refine ⟨he, fun hc => ?_⟩
  have hm := List.mem_map_of_mem (smart_convert_col (tlen df)) hc
  rwa [he] at hm

/-- Witness for C10 at a concrete one-column numeric table. -/
theorem smart_convert_only_object_witness :
    smart_convert_col (tlen [(⟨"n", Dtype.int64, [Value.vInt 3]⟩ : Column)])
        ⟨"n", Dtype.int64, [Value.vInt 3]⟩ = ⟨"n", Dtype.int64, [Value.vInt 3]⟩ ∧
      ((⟨"n", Dtype.int64, [Value.vInt 3]⟩ : Column) ∈
          ([⟨"n", Dtype.int64, [Value.vInt 3]⟩] : Table) →
        (⟨"n", Dtype.int64, [Value.vInt 3]⟩ : Column) ∈
          smart_convert_columns [⟨"n", Dtype.int64, [Value.vInt 3]⟩]) :=
  smart_convert_only_object [⟨"n", Dtype.int64, [Value.vInt 3]⟩]
    ⟨"n", Dtype.int64, [Value.vInt 3]⟩ (by decide)

/-- C4: the missing-value auditor reports exactly the columns whose null
fraction strictly exceeds `MISSING_THRESHOLD = 0.3`, sorted in descending
order of that fraction; columns at or below the threshold are absent. -/
theorem check_missing_values_spec (df : Table)
    (hnd : (df.map Column.name).Nodup) :
    (check_missing_values df).Sorted descByFrac ∧
      ∀ c ∈ df,
        (c.name ∈ (check_missing_values df).map Prod.fst ↔
          (3 : ℚ) / 10 < missingFrac c) := by
  constructor
  · exact List.Pairwise.sublist (List.filter_sublist _)
      (List.sorted_insertionSort descByFrac (missing_fractions df))
  · intro c hc
    constructor
    · intro h
      obtain ⟨⟨nm, q⟩, hmem, hfst⟩ := List.mem_map.mp h
      obtain ⟨hsort, hq⟩ := List.mem_filter.mp hmem
      have hl : (nm, q) ∈ missing_fractions df :=
        (List.perm_insertionSort descByFrac (missing_fractions df)).mem_iff.mp hsort
      obtain ⟨c', hc', heq⟩ := List.mem_map.mp hl
      have hn : c'.name = c.name := by
        have h1 : c'.name = nm := congrArg Prod.fst heq
        rw [h1]
        simpa using hfst
      have hcc : c' = c := List.inj_on_of_nodup_map hnd hc' hc hn
      have hq' : q = missingFrac c := by
        have := congrArg Prod.snd heq
        simpa [hcc] using this.symm
      rw [← hq']
      simpa using hq
    · intro h
      refine List.mem_map.mpr ⟨(c.name, missingFrac c), ?_, rfl⟩
      refine List.mem_filter.mpr ⟨?_, by simpa using h⟩
      exact (List.perm_insertionSort descByFrac (missing_fractions df)).mem_iff.mpr
        (List.mem_map_of_mem _ hc)

/-- Witness for C4: a three-column table with missing fractions
1/2, 3/4 and 0; the audit reports exactly the two above 0.3. -/
theorem check_missing_values_spec_witness :
    (([(⟨"a", Dtype.float64, [Value.vNull, Value.vNull, Value.vInt 1, Value.vInt 2]⟩ : Column),
        ⟨"b", Dtype.object, [Value.vStr "x", Value.vNull, Value.vNull, Value.vNull]⟩,
        ⟨"k", Dtype.int64, [Value.vInt 1, Value.vInt 2, Value.vInt 3, Value.vInt 4]⟩] : Table).map
          Column.name).Nodup ∧
      ((check_missing_values
          [⟨"a", Dtype.float64, [Value.vNull, Value.vNull, Value.vInt 1, Value.vInt 2]⟩,
           ⟨"b", Dtype.object, [Value.vStr "x", Value.vNull, Value.vNull, Value.vNull]⟩,
           ⟨"k", Dtype.int64, [Value.vInt 1, Value.vInt 2, Value.vInt 3, Value.vInt 4]⟩]).Sorted
              descByFrac ∧
        ∀ c ∈ ([⟨"a", Dtype.float64, [Value.vNull, Value.vNull, Value.vInt 1, Value.vInt 2]⟩,
           ⟨"b", Dtype.object, [Value.vStr "x", Value.vNull, Value.vNull, Value.vNull]⟩,
           ⟨"k", Dtype.int64, [Value.vInt 1, Value.vInt 2, Value.vInt 3, Value.vInt 4]⟩] : Table),
          (c.name ∈ (check_missing_values
              [⟨"a", Dtype.float64, [Value.vNull, Value.vNull, Value.vInt 1, Value.vInt 2]⟩,
               ⟨"b", Dtype.object, [Value.vStr "x", Value.vNull, Value.vNull, Value.vNull]⟩,
               ⟨"k", Dtype.int64, [Value.vInt 1, Value.vInt 2, Value.vInt 3, Value.vInt 4]⟩]).map
                Prod.fst ↔
            (3 : ℚ) / 10 < missingFrac c)) :=
  ⟨by decide, check_missing_values_spec _ (by decide)⟩

/-- C3 counterexample: in the table with a long-string object column `"t"`
and a boolean column `"b"`, the classifier puts `"t"` into *both* the
categorical and the text-like set (text-like is a subset of categorical, not
disjoint from it), and `"b"` into none of the four sets — so the four sets
are neither pairwise disjoint nor a cover of all columns. -/
theorem summarize_partition_counterexample :
    ("t" ∈ (summarize_column_types
        [⟨"t", Dtype.object, [Value.vStr "xxxxxxxxxxxxxxxxxxxxxxxxxxxxxxxxxxxxxxxxxxxxxxxxxx"]⟩,
         ⟨"b", Dtype.bool, [Value.vBool true]⟩]).cat ∧
      "t" ∈ (summarize_column_types
        [⟨"t", Dtype.object, [Value.vStr "xxxxxxxxxxxxxxxxxxxxxxxxxxxxxxxxxxxxxxxxxxxxxxxxxx"]⟩,
         ⟨"b", Dtype.bool, [Value.vBool true]⟩]).text) ∧
    ("b" ∉ (summarize_column_types
        [⟨"t", Dtype.object, [Value.vStr "xxxxxxxxxxxxxxxxxxxxxxxxxxxxxxxxxxxxxxxxxxxxxxxxxx"]⟩,
         ⟨"b", Dtype.bool, [Value.vBool true]⟩]).num ∧
      "b" ∉ (summarize_column_types
        [⟨"t", Dtype.object, [Value.vStr "xxxxxxxxxxxxxxxxxxxxxxxxxxxxxxxxxxxxxxxxxxxxxxxxxx"]⟩,
         ⟨"b", Dtype.bool, [Value.vBool true]⟩]).cat ∧
      "b" ∉ (summarize_column_types
        [⟨"t", Dtype.object, [Value.vStr "xxxxxxxxxxxxxxxxxxxxxxxxxxxxxxxxxxxxxxxxxxxxxxxxxx"]⟩,
         ⟨"b", Dtype.bool, [Value.vBool true]⟩]).text ∧
      "b" ∉ (summarize_column_types
        [⟨"t", Dtype.object, [Value.vStr "xxxxxxxxxxxxxxxxxxxxxxxxxxxxxxxxxxxxxxxxxxxxxxxxxx"]⟩,
         ⟨"b", Dtype.bool, [Value.vBool true]⟩]).date) := by
  decide

/-- C3 amended: the numeric, categorical and date/time name lists are
pairwise disjoint, the text-like list is a subset of the categorical list
(a refinement, not a disjoint class), and together the three disjoint lists
cover exactly the columns whose dtype is not boolean — boolean columns are
classified into none of the four sets. -/
theorem summarize_partition (df : Table) (hnd : (df.map Column.name).Nodup) :
    (∀ c ∈ df,
      (c.name ∈ (summarize_column_types df).num →
        c.name ∉ (summarize_column_types df).cat ∧
          c.name ∉ (summarize_column_types df).date) ∧
      (c.name ∈ (summarize_column_types df).cat →
        c.name ∉ (summarize_column_types df).date)) ∧
    (∀ nm ∈ (summarize_column_types df).text,
      nm ∈ (summarize_column_types df).cat) ∧
    (∀ c ∈ df,
      ((c.name ∈ (summarize_column_types df).num ∨
          c.name ∈ (summarize_column_types df).cat ∨
          c.name ∈ (summarize_column_types df).date) ↔
        c.dtype ≠ Dtype.bool)) := by
  refine ⟨fun c hc => ?_, fun nm hnm => ?_, fun c hc => ?_⟩
  · simp only [summarize_column_types]
    rw [name_mem_filter_map _ hc hnd, name_mem_filter_map _ hc hnd,
      name_mem_filter_map _ hc hnd]
    cases c.dtype <;> simp [isNumDtype, isCatDtype, isDateDtype]
  · simp only [summarize_column_types] at hnm ⊢
    exact List.mem_of_mem_filter hnm
  · simp only [summarize_column_types]
    rw [name_mem_filter_map _ hc hnd, name_mem_filter_map _ hc hnd,
      name_mem_filter_map _ hc hnd]
    cases c.dtype <;> simp [isNumDtype, isCatDtype, isDateDtype]

/-- Witness for C3 (amended) at a concrete three-dtype table. -/
theorem summarize_partition_witness :
    (([(⟨"n", Dtype.int64, [Value.vInt 1]⟩ : Column),
        ⟨"s", Dtype.object, [Value.vStr "x"]⟩,
        ⟨"bb", Dtype.bool, [Value.vBool true]⟩] : Table).map Column.name).Nodup ∧
      (∀ c ∈ ([⟨"n", Dtype.int64, [Value.vInt 1]⟩,
          ⟨"s", Dtype.object, [Value.vStr "x"]⟩,
          ⟨"bb", Dtype.bool, [Value.vBool true]⟩] : Table),
        (c.name ∈ (summarize_column_types
            [⟨"n", Dtype.int64, [Value.vInt 1]⟩,
             ⟨"s", Dtype.object, [Value.vStr "x"]⟩,
             ⟨"bb", Dtype.bool, [Value.vBool true]⟩]).num →
          c.name ∉ (summarize_column_types
            [⟨"n", Dtype.int64, [Value.vInt 1]⟩,
             ⟨"s", Dtype.object, [Value.vStr "x"]⟩,
             ⟨"bb", Dtype.bool, [Value.vBool true]⟩]).cat ∧
            c.name ∉ (summarize_column_types
              [⟨"n", Dtype.int64, [Value.vInt 1]⟩,
               ⟨"s", Dtype.object, [Value.vStr "x"]⟩,
               ⟨"bb", Dtype.bool, [Value.vBool true]⟩]).date) ∧
        (c.name ∈ (summarize_column_types
            [⟨"n", Dtype.int64, [Value.vInt 1]⟩,
             ⟨"s", Dtype.object, [Value.vStr "x"]⟩,
             ⟨"bb", Dtype.bool, [Value.vBool true]⟩]).cat →
          c.name ∉ (summarize_column_types
            [⟨"n", Dtype.int64, [Value.vInt 1]⟩,
             ⟨"s", Dtype.object, [Value.vStr "x"]⟩,
             ⟨"bb", Dtype.bool, [Value.vBool true]⟩]).date)) ∧
      (∀ nm ∈ (summarize_column_types
          [⟨"n", Dtype.int64, [Value.vInt 1]⟩,
           ⟨"s", Dtype.object, [Value.vStr "x"]⟩,
           ⟨"bb", Dtype.bool, [Value.vBool true]⟩]).text,
        nm ∈ (summarize_column_types
          [⟨"n", Dtype.int64, [Value.vInt 1]⟩,
           ⟨"s", Dtype.object, [Value.vStr "x"]⟩,
           ⟨"bb", Dtype.bool, [Value.vBool true]⟩]).cat) ∧
      (∀ c ∈ ([⟨"n", Dtype.int64, [Value.vInt 1]⟩,
          ⟨"s", Dtype.object, [Value.vStr "x"]⟩,
          ⟨"bb", Dtype.bool, [Value.vBool true]⟩] : Table),
        ((c.name ∈ (summarize_column_types
            [⟨"n", Dtype.int64, [Value.vInt 1]⟩,
             ⟨"s", Dtype.object, [Value.vStr "x"]⟩,
             ⟨"bb", Dtype.bool, [Value.vBool true]⟩]).num ∨
            c.name ∈ (summarize_column_types
              [⟨"n", Dtype.int64, [Value.vInt 1]⟩,
               ⟨"s", Dtype.object, [Value.vStr "x"]⟩,
               ⟨"bb", Dtype.bool, [Value.vBool true]⟩]).cat ∨
            c.name ∈ (summarize_column_types
              [⟨"n", Dtype.int64, [Value.vInt 1]⟩,
               ⟨"s", Dtype.object, [Value.vStr "x"]⟩,
               ⟨"bb", Dtype.bool, [Value.vBool true]⟩]).date) ↔
          c.dtype ≠ Dtype.bool)) :=
  ⟨by decide, summarize_partition _ (by decide)⟩

/-- C2: an object column that is not reclassified as date/time — in
particular one where at least 90% of the non-null values are purely digit
strings — stays string-typed through the conversion pass, so after
classification it is in the categorical set and not in the numeric set. -/
theorem digit_strings_stay_categorical (df : Table) (c : Column)
    (hc : c ∈ df) (hnd : (df.map Column.name).Nodup)
    (hobj : c.dtype = Dtype.object)
    (hdig : 9 * nonNullCount c.vals ≤ 10 * digitCount c.vals)
    (hnotdate :
      c.name ∉ (summarize_column_types (smart_convert_columns df)).date) :
    c.name ∈ (summarize_column_types (smart_convert_columns df)).cat ∧
      c.name ∉ (summarize_column_types (smart_convert_columns df)).num := by
  have hnd' : ((smart_convert_columns df).map Column.name).Nodup := by
    rw [smart_convert_columns_names]; exact hnd
  have hc' : smart_convert_col (tlen df) c ∈ smart_convert_columns df :=
    List.mem_map_of_mem _ hc
  have hname : (smart_convert_col (tlen df) c).name = c.name :=
    smart_convert_col_name _ c
  have hdt : (smart_convert_col (tlen df) c).dtype = Dtype.object := by
    rcases smart_convert_col_dtype_object (n := tlen df) hobj with h | h
    · exact h
    · exfalso
      apply hnotdate
      have := (name_mem_filter_map (fun x => isDateDtype x.dtype) hc' hnd').mpr
        (by rw [h]; rfl)
      rw [hname] at this
      simpa [summarize_column_types] using this
  constructor
  · have := (name_mem_filter_map (fun x => isCatDtype x.dtype) hc' hnd').mpr
      (by rw [hdt]; rfl)
    rw [hname] at this
    simpa [summarize_column_types] using this
  · intro hmem
    have : isNumDtype (smart_convert_col (tlen df) c).dtype = true := by
      apply (name_mem_filter_map (fun x => isNumDtype x.dtype) hc' hnd').mp
      rw [hname]
      simpa [summarize_column_types] using hmem
    rw [hdt] at this
    exact absurd this (by simp [isNumDtype])

/-- Witness for C2: a column of zero-padded digit codes stays categorical. -/
theorem digit_strings_stay_categorical_witness :
    ((⟨"code", Dtype.object, [Value.vStr "00042", Value.vStr "00043"]⟩ : Column) ∈
        ([⟨"code", Dtype.object, [Value.vStr "00042", Value.vStr "00043"]⟩] : Table)) ∧
      (9 * nonNullCount [Value.vStr "00042", Value.vStr "00043"] ≤
        10 * digitCount [Value.vStr "00042", Value.vStr "00043"]) ∧
      ("code" ∈ (summarize_column_types (smart_convert_columns
          [⟨"code", Dtype.object, [Value.vStr "00042", Value.vStr "00043"]⟩])).cat ∧
        "code" ∉ (summarize_column_types (smart_convert_columns
          [⟨"code", Dtype.object, [Value.vStr "00042", Value.vStr "00043"]⟩])).num) :=
  ⟨by decide, by decide,
    digit_strings_stay_categorical
      [⟨"code", Dtype.object, [Value.vStr "00042", Value.vStr "00043"]⟩]
      ⟨"code", Dtype.object, [Value.vStr "00042", Value.vStr "00043"]⟩
      (by decide) (by decide) (by decide) (by decide) (by decide)⟩

/-- C7: a bar-chart file is written for a column exactly when the column is
categorical (object/category dtype) and its cardinality — distinct non-null
values — is at most 20. -/
theorem barchart_iff_low_cardinality (df : Table) (c : Column)
    (hc : c ∈ df) (hnd : (df.map Column.name).Nodup) :
    c.name ∈ plot_categorical_distributions df (summarize_column_types df).cat ↔
      (isCatDtype c.dtype = true ∧ nunique c ≤ 20) := by
  unfold plot_categorical_distributions
  rw [List.mem_filter]
  constructor
  · rintro ⟨hcat, hpred⟩
    refine ⟨(name_mem_filter_map _ hc hnd).mp
      (by simpa [summarize_column_types] using hcat), ?_⟩
    rw [findCol_eq_some hc hnd] at hpred
    simpa using hpred
  · rintro ⟨hcat, hn⟩
    refine ⟨by simpa [summarize_column_types] using
      (name_mem_filter_map (fun x => isCatDtype x.dtype) hc hnd).mpr hcat, ?_⟩
    rw [findCol_eq_some hc hnd]
    simpa using hn

/-- Witness for C7: a 2-distinct-value categorical column qualifies, and the
iff evaluates accordingly. -/
theorem barchart_iff_low_cardinality_witness :
    ((⟨"c", Dtype.object, [Value.vStr "a", Value.vStr "b", Value.vStr "a"]⟩ : Column) ∈
        ([⟨"c", Dtype.object, [Value.vStr "a", Value.vStr "b", Value.vStr "a"]⟩] : Table)) ∧
      (("c" ∈ plot_categorical_distributions
          [⟨"c", Dtype.object, [Value.vStr "a", Value.vStr "b", Value.vStr "a"]⟩]
          (summarize_column_types
            [⟨"c", Dtype.object, [Value.vStr "a", Value.vStr "b", Value.vStr "a"]⟩]).cat) ↔
        (isCatDtype Dtype.object = true ∧
          nunique ⟨"c", Dtype.object, [Value.vStr "a", Value.vStr "b", Value.vStr "a"]⟩ ≤ 20)) :=
  ⟨by decide,
    barchart_iff_low_cardinality
      [⟨"c", Dtype.object, [Value.vStr "a", Value.vStr "b", Value.vStr "a"]⟩]
      ⟨"c", Dtype.object, [Value.vStr "a", Value.vStr "b", Value.vStr "a"]⟩
      (by decide) (by decide)⟩

/-- C8: for every successfully loaded table, the heatmap file is written
exactly when the table has at least one numeric column; with none the step
is skipped with a warning.  The guard `num_df.empty` also checks the row
axis, but that case cannot separate the two sides for a loaded table: with
no `dtype=` argument, `pd.read_csv` infers `object` for every column of a
zero-row frame, and the conversion pass neither creates numeric columns
nor changes the row count — so a loaded zero-row table has no numeric
columns, which is the scope hypothesis `hload`. -/
theorem heatmap_written_iff (df : Table)
    (hload : tlen df = 0 → num_df df = []) :
    generate_correlation_heatmap df = true ↔ num_df df ≠ [] := by
  rcases Nat.eq_zero_or_pos (tlen df) with h0 | hrows
  · have hnum := hload h0
    simp [generate_correlation_heatmap, hnum, h0]
  · have h1 : (tlen df == 0) = false := by
      simpa using Nat.pos_iff_ne_zero.mp hrows
    simp [generate_correlation_heatmap, h1, List.isEmpty_iff]

/-- Witness for C8 at a one-row, one-numeric-column table (which, having a
row, satisfies the loaded-table scope hypothesis vacuously). -/
theorem heatmap_written_iff_witness :
    (tlen [(⟨"a", Dtype.int64, [Value.vInt 1]⟩ : Column)] = 0 →
        num_df [(⟨"a", Dtype.int64, [Value.vInt 1]⟩ : Column)] = []) ∧
      (generate_correlation_heatmap [⟨"a", Dtype.int64, [Value.vInt 1]⟩] = true ↔
        num_df [⟨"a", Dtype.int64, [Value.vInt 1]⟩] ≠ []) :=
  ⟨by decide, heatmap_written_iff [⟨"a", Dtype.int64, [Value.vInt 1]⟩] (by decide)⟩

/-- A `YYYY-MM-DD`-shaped string contains a dash. -/
lemma isoShaped_dash {s : String} (h : isoShaped s = true) : '-' ∈ s.toList := by
  unfold isoShaped at h
  split at h
  · rename_i heq
    rw [heq]
    simp
  · exact absurd h (by simp)

/-- A `YYYY-MM-DD`-shaped string is not a pure digit string. -/
lemma isoShaped_not_digitStr {s : String} (h : isoShaped s = true) :
    isDigitStr s = false := by
  have hd : '-' ∈ s.toList := isoShaped_dash h
  unfold isDigitStr
  cases hall : s.toList.all Char.isDigit
  · simp
  · exact absurd (List.all_eq_true.mp hall '-' hd) (by decide)

/-- A column of nulls and `YYYY-MM-DD`-shaped strings has no pure digit
string, so the `^\d+$` branch cannot fire on it. -/
lemma digitCount_eq_zero {vals : List Value}
    (hvals : ∀ v ∈ vals,
      v = Value.vNull ∨ ∃ s, v = Value.vStr s ∧ isoShaped s = true) :
    digitCount vals = 0 := by
  unfold digitCount
  rw [List.countP_eq_zero]
  intro v hv
  rcases hvals v hv with rfl | ⟨s, rfl, hs⟩
  · simp [digitStrV]
  · simp [digitStrV, isoShaped_not_digitStr hs]

/-- `mapM` over `Option` succeeds exactly when every element does. -/
lemma mapM_option_isSome {α β : Type} (f : α → Option β) (l : List α) :
    (l.mapM f).isSome = true ↔ ∀ a ∈ l, (f a).isSome = true := by
  induction l with
  | nil => exact ⟨fun _ => by simp, fun _ => rfl⟩
  | cons x xs ih =>
    rw [List.mapM_cons]
    constructor
    · intro h a ha
      rcases List.mem_cons.mp ha with rfl | ha
      · cases hx : f a
        · rw [hx] at h
          simp at h
        · simp
      · cases hx : f x
        · rw [hx] at h
          simp at h
        · rw [hx] at h
          cases hxs : xs.mapM f
          · rw [hxs] at h
            simp at h
          · exact ih.mp (by rw [hxs]; rfl) a ha
    · intro h
      rcases Option.isSome_iff_exists.mp (h x (List.mem_cons_self x xs)) with ⟨b, hb⟩
      rcases Option.isSome_iff_exists.mp
        (ih.mpr (fun a ha => h a (List.mem_cons_of_mem _ ha))) with ⟨bs, hbs⟩
      rw [hb, hbs]
      rfl

/-- On a column of strings and nulls, `pd.to_datetime(..., errors='ignore')`
succeeds exactly when every string cell parses (nulls pass through as
`NaT`). -/
lemma to_datetime_ignore_isSome_iff {vals : List Value}
    (hvals : ∀ v ∈ vals, v = Value.vNull ∨ ∃ s, v = Value.vStr s) :
    (to_datetime_ignore vals).isSome = true ↔
      ∀ s, Value.vStr s ∈ vals → (parse_iso_date s).isSome = true := by
  unfold to_datetime_ignore
  rw [mapM_option_isSome]
  constructor
  · intro h s hs
    exact h _ hs
  · intro h v hv
    rcases hvals v hv with rfl | ⟨s, rfl⟩
    · simp
    · exact h s hv

/-- `isDateDtype` characterizes `datetime64`. -/
lemma isDateDtype_iff {d : Dtype} : isDateDtype d = true ↔ d = Dtype.datetime64 := by
  cases d <;> simp [isDateDtype]

/-- The digit-branch test can never fire on a zero digit count: no integer
exceeds `0.9 * len(df) ≥ 0` from below. -/
lemma pyThresholdLt_zero (c n : Nat) : pyThresholdLt c n 0 = false := by
  unfold pyThresholdLt
  cases h : Nat.blt (round53 (c * n)) (0 * 2 ^ 53) with
  | false => rfl
  | true =>
    exfalso
    rw [Nat.blt_eq] at h
    omega

/-- The conversion behavior of one object column of nulls and
`YYYY-MM-DD`-shaped strings: it gets dtype `datetime64` exactly when the
match count clears the binary64 threshold `0.7 * len(df)` *and* every
string cell parses as a valid date; otherwise the column is returned
completely unchanged. -/
lemma smart_convert_col_date_iff {n : Nat} {c : Column}
    (hobj : c.dtype = Dtype.object)
    (hvals : ∀ v ∈ c.vals,
      v = Value.vNull ∨ ∃ s, v = Value.vStr s ∧ isoShaped s = true) :
    ((smart_convert_col n c).dtype = Dtype.datetime64 ↔
      (pyThresholdLt fl07 n (isoMatchCount c.vals) = true ∧
        ∀ s, Value.vStr s ∈ c.vals → (parse_iso_date s).isSome = true)) ∧
    (¬(pyThresholdLt fl07 n (isoMatchCount c.vals) = true ∧
        ∀ s, Value.vStr s ∈ c.vals → (parse_iso_date s).isSome = true) →
      smart_convert_col n c = c) := by
  have hvals' : ∀ v ∈ c.vals, v = Value.vNull ∨ ∃ s, v = Value.vStr s :=
    fun v hv => (hvals v hv).imp id (fun ⟨s, hs, _⟩ => ⟨s, hs⟩)
  have hdig : digitCount c.vals = 0 := digitCount_eq_zero hvals
  unfold smart_convert_col
  rw [if_pos hobj]
  cases hth : pyThresholdLt fl07 n (isoMatchCount c.vals) with
  | true =>
    rw [if_pos rfl]
    cases hdt : to_datetime_ignore c.vals with
    | some vals =>
      have hall := (to_datetime_ignore_isSome_iff hvals').mp (by rw [hdt]; rfl)
      exact ⟨⟨fun _ => ⟨rfl, hall⟩, fun _ => rfl⟩,
        fun hcon => absurd ⟨rfl, hall⟩ hcon⟩
    | none =>
      have hnot : ¬ ∀ s, Value.vStr s ∈ c.vals →
          (parse_iso_date s).isSome = true := by
        intro hall
        have := (to_datetime_ignore_isSome_iff hvals').mpr hall
        rw [hdt] at this
        simp at this
      refine ⟨?_, fun _ => rfl⟩
      rw [hobj]
      exact ⟨fun h => absurd h (by decide), fun ⟨_, hall⟩ => absurd hall hnot⟩
  | false =>
    rw [if_neg (by simp), hdig, pyThresholdLt_zero, if_neg (by simp)]
    refine ⟨?_, fun _ => rfl⟩
    rw [hobj]
    exact ⟨fun h => absurd h (by decide), fun ⟨h, _⟩ => absurd h (by simp)⟩

/-- C1 counterexample.  First half: in a column whose single non-null value
matches `YYYY-MM-DD` (100% ≥ 70% of *non-null* values), the code still does
not reclassify, because its threshold divides by `len(df)` (nulls included)
and is strict.  Second half: in a column where all four values match the
pattern and the threshold is met, one value (`"2020-13-99"`) fails to parse
— the claim says that cell is left null in a converted date column, but
`errors='ignore'` returns the entire column unchanged, still string-typed. -/
theorem smart_convert_date_claim_counterexample :
    (7 * nonNullCount [Value.vStr "2020-01-01", Value.vNull, Value.vNull, Value.vNull] ≤
        10 * isoMatchCount [Value.vStr "2020-01-01", Value.vNull, Value.vNull, Value.vNull] ∧
      smart_convert_columns
          [⟨"a", Dtype.object,
            [Value.vStr "2020-01-01", Value.vNull, Value.vNull, Value.vNull]⟩] =
        [⟨"a", Dtype.object,
          [Value.vStr "2020-01-01", Value.vNull, Value.vNull, Value.vNull]⟩] ∧
      (summarize_column_types (smart_convert_columns
          [⟨"a", Dtype.object,
            [Value.vStr "2020-01-01", Value.vNull, Value.vNull, Value.vNull]⟩])).date = []) ∧
    (7 * nonNullCount [Value.vStr "2020-01-01", Value.vStr "2020-01-02",
          Value.vStr "2020-01-03", Value.vStr "2020-13-99"] ≤
        10 * isoMatchCount [Value.vStr "2020-01-01", Value.vStr "2020-01-02",
          Value.vStr "2020-01-03", Value.vStr "2020-13-99"] ∧
      pyThresholdLt fl07
          (tlen [(⟨"c", Dtype.object,
            [Value.vStr "2020-01-01", Value.vStr "2020-01-02",
              Value.vStr "2020-01-03", Value.vStr "2020-13-99"]⟩ : Column)])
          (isoMatchCount [Value.vStr "2020-01-01", Value.vStr "2020-01-02",
            Value.vStr "2020-01-03", Value.vStr "2020-13-99"]) = true ∧
      smart_convert_columns
          [⟨"c", Dtype.object,
            [Value.vStr "2020-01-01", Value.vStr "2020-01-02",
              Value.vStr "2020-01-03", Value.vStr "2020-13-99"]⟩] =
        [⟨"c", Dtype.object,
          [Value.vStr "2020-01-01", Value.vStr "2020-01-02",
            Value.vStr "2020-01-03", Value.vStr "2020-13-99"]⟩]) := by
  decide

/-- C1 amended: for an object column of nulls and `YYYY-MM-DD`-shaped
strings, the column is classified date/time iff its match count strictly
exceeds the binary64 product `0.7 * len(df)` (the denominator counts nulls
too, and the float boundary matters: at 90 rows the threshold is
`62.99999999999999…`, so a column with exactly 63 of 90 matches *is*
reclassified, while at 10 rows `7 > 0.7 * 10 = 7.0` fails and exactly 70%
is not — both facts are part of the statement) *and* every string cell
parses as a valid in-range date; in every other case — below the
threshold, or any single parse failure — the column is left completely
unchanged (`errors='ignore'` aborts the whole conversion rather than
nulling the failing cells). -/
theorem smart_convert_date_rule (df : Table) (c : Column)
    (hc : c ∈ df) (hnd : (df.map Column.name).Nodup)
    (hobj : c.dtype = Dtype.object)
    (hvals : ∀ v ∈ c.vals,
      v = Value.vNull ∨ ∃ s, v = Value.vStr s ∧ isoShaped s = true) :
    ((c.name ∈ (summarize_column_types (smart_convert_columns df)).date ↔
      (pyThresholdLt fl07 (tlen df) (isoMatchCount c.vals) = true ∧
        ∀ s, Value.vStr s ∈ c.vals → (parse_iso_date s).isSome = true)) ∧
    (¬(pyThresholdLt fl07 (tlen df) (isoMatchCount c.vals) = true ∧
        ∀ s, Value.vStr s ∈ c.vals → (parse_iso_date s).isSome = true) →
      smart_convert_col (tlen df) c = c)) ∧
    (pyThresholdLt fl07 90 63 = true ∧ pyThresholdLt fl07 10 7 = false) := by
  refine ⟨?_, by decide, by decide⟩
  obtain ⟨hiff, hunch⟩ := smart_convert_col_date_iff (n := tlen df) hobj hvals
  have hnd' : ((smart_convert_columns df).map Column.name).Nodup := by
    rw [smart_convert_columns_names]
    exact hnd
  have hc' : smart_convert_col (tlen df) c ∈ smart_convert_columns df :=
    List.mem_map_of_mem _ hc
  have hmem := name_mem_filter_map (fun x => isDateDtype x.dtype) hc' hnd'
  rw [smart_convert_col_name (tlen df) c] at hmem
  refine ⟨?_, hunch⟩
  rw [← hiff, ← isDateDtype_iff, ← hmem]
  constructor
  · intro h
    simpa [summarize_column_types] using h
  · intro h
    simpa [summarize_column_types] using h

/-- Witness for C1 (amended): three valid dates and a null out of four rows
clear the strict 70%-of-total threshold and all parse, so the column lands
in the date/time set. -/
theorem smart_convert_date_rule_witness :
    ((⟨"d", Dtype.object, [Value.vStr "2020-01-05", Value.vStr "2020-01-06",
          Value.vStr "2020-01-07", Value.vNull]⟩ : Column) ∈
        ([⟨"d", Dtype.object, [Value.vStr "2020-01-05", Value.vStr "2020-01-06",
          Value.vStr "2020-01-07", Value.vNull]⟩] : Table)) ∧
      ("d" ∈ (summarize_column_types (smart_convert_columns
          [⟨"d", Dtype.object, [Value.vStr "2020-01-05", Value.vStr "2020-01-06",
            Value.vStr "2020-01-07", Value.vNull]⟩])).date ↔
        (pyThresholdLt fl07
            (tlen [(⟨"d", Dtype.object, [Value.vStr "2020-01-05", Value.vStr "2020-01-06",
              Value.vStr "2020-01-07", Value.vNull]⟩ : Column)])
            (isoMatchCount [Value.vStr "2020-01-05", Value.vStr "2020-01-06",
              Value.vStr "2020-01-07", Value.vNull]) = true ∧
          ∀ s, Value.vStr s ∈ [Value.vStr "2020-01-05", Value.vStr "2020-01-06",
              Value.vStr "2020-01-07", Value.vNull] →
            (parse_iso_date s).isSome = true)) :=
  ⟨by decide,
    (smart_convert_date_rule
      [⟨"d", Dtype.object, [Value.vStr "2020-01-05", Value.vStr "2020-01-06",
        Value.vStr "2020-01-07", Value.vNull]⟩]
      ⟨"d", Dtype.object, [Value.vStr "2020-01-05", Value.vStr "2020-01-06",
        Value.vStr "2020-01-07", Value.vNull]⟩
      (by decide) (by decide) (by decide)
      (by
        intro v hv
        rcases List.mem_cons.mp hv with rfl | hv
        · exact Or.inr ⟨"2020-01-05", rfl, by decide⟩
        rcases List.mem_cons.mp hv with rfl | hv
        · exact Or.inr ⟨"2020-01-06", rfl, by decide⟩
        rcases List.mem_cons.mp hv with rfl | hv
        · exact Or.inr ⟨"2020-01-07", rfl, by decide⟩
        rcases List.mem_cons.mp hv with rfl | hv
        · exact Or.inl rfl
        · exact absurd hv (List.not_mem_nil v))).1.1⟩

/-! ### Delimiter-detection lemmas -/

/-- The first-occurrence list of a constant list is the singleton. -/
lemma firstOccurrences_const {l : List Nat} {k : Nat} (hne : l ≠ [])
    (hall : ∀ x ∈ l, x = k) : firstOccurrences l = [k] := by
  induction l with
  | nil => exact absurd rfl hne
  | cons x xs ih =>
    have hx : x = k := hall x (List.mem_cons_self x xs)
    subst hx
    rcases eq_or_ne xs [] with rfl | hne2
    · rfl
    · rw [firstOccurrences, ih hne2 (fun y hy => hall y (List.mem_cons_of_mem _ hy))]
      simp

/-- The frequency table of a constant list has one entry: the value with
the full line count. -/
lemma tally_const {l : List Nat} {k : Nat} (hne : l ≠ [])
    (hall : ∀ x ∈ l, x = k) : tally l = [(k, l.length)] := by
  unfold tally
  rw [firstOccurrences_const hne hall]
  simp only [List.map_cons, List.map_nil]
  rw [List.count_eq_length.mpr (fun b hb => (hall b hb).symm)]

/-- A character occurring the same positive number of times on every seen
line gets an unadjusted mode covering all lines. -/
lemma modeOf_const {seen : List (List Char)} {d : Char} {k : Nat}
    (hne : seen ≠ []) (hk : 0 < k)
    (hall : ∀ l ∈ seen, l.count d = k) :
    modeOf seen d = some ⟨d, k, (seen.length : Int)⟩ := by
  obtain ⟨k', rfl⟩ : ∃ k', k = k' + 1 := ⟨k - 1, by omega⟩
  unfold modeOf
  have hmapne : seen.map (fun l => l.count d) ≠ [] := by
    simpa using hne
  have hmapall : ∀ x ∈ seen.map (fun l => l.count d), x = k' + 1 := by
    intro x hx
    obtain ⟨l, hl, rfl⟩ := List.mem_map.mp hx
    exact hall l hl
  rw [tally_const hmapne hmapall, List.length_map]
  rfl

/-- A mode entry produced for a character carries that character. -/
lemma modeOf_ch {seen : List (List Char)} {a : Char} {e : ModeE}
    (h : modeOf seen a = some e) : e.ch = a := by
  unfold modeOf at h
  split at h
  · exact absurd h (by simp)
  · exact absurd h (by simp)
  · injection h with h'
    rw [← h']
  · injection h with h'
    rw [← h']

/-- A candidate qualifying at full consistency also qualifies at the lowest
tested level 91/100. -/
lemma qualifies_91_of_100 {t : Nat} {m : ModeE}
    (h : qualifies t 100 m = true) : qualifies t 91 m = true := by
  unfold qualifies at h ⊢
  simp only [Bool.and_eq_true, decide_eq_true_eq] at h ⊢
  refine ⟨h.1, ?_⟩
  have h3 := h.2
  omega

/-- If the character `d` has a qualifying mode at full consistency and no
other character of the candidate list does, the full-consistency filter over
the produced modes is exactly `d`'s entry. -/
lemma filter_filterMap_singleton {L : List Char} {seen : List (List Char)}
    {d : Char} {e : ModeE} {t : Nat}
    (hnd : L.Nodup) (hdL : d ∈ L)
    (hmode : modeOf seen d = some e)
    (hqe : qualifies t 100 e = true)
    (hother : ∀ a ∈ L, a ≠ d → ∀ e', modeOf seen a = some e' →
      qualifies t 100 e' = false) :
    (L.filterMap (modeOf seen)).filter (qualifies t 100) = [e] := by
  induction L with
  | nil => exact absurd hdL (List.not_mem_nil d)
  | cons x xs ih =>
    obtain ⟨hx, hndxs⟩ := List.nodup_cons.mp hnd
    rcases List.mem_cons.mp hdL with heq | hdxs
    · subst heq
      rw [List.filterMap_cons_some hmode, List.filter_cons_of_pos hqe]
      have hnil : (xs.filterMap (modeOf seen)).filter (qualifies t 100) = [] := by
        rw [List.filter_eq_nil_iff]
        intro m hm
        obtain ⟨a, ha, hma⟩ := List.mem_filterMap.mp hm
        have hne : a ≠ d := fun h => hx (h ▸ ha)
        simp [hother a (List.mem_cons_of_mem _ ha) hne m hma]
      rw [hnil]
    · have hxd : x ≠ d := fun h => hx (h ▸ hdxs)
      have hother' : ∀ a ∈ xs, a ≠ d → ∀ e', modeOf seen a = some e' →
          qualifies t 100 e' = false :=
        fun a ha => hother a (List.mem_cons_of_mem _ ha)
      cases hmx : modeOf seen x with
      | none =>
        rw [List.filterMap_cons_none hmx]
        exact ih hndxs hdxs hother'
      | some ex =>
        rw [List.filterMap_cons_some hmx,
          List.filter_cons_of_neg
            (by simp [hother x (List.mem_cons_self x xs) hxd ex hmx])]
        exact ih hndxs hdxs hother'

/-- If the full-consistency filter is the singleton `[e]`, the whole sweep
stops there. -/
lemma sweep_of_filter_best {modes : List ModeE} {total : Nat} {e : ModeE}
    (h : modes.filter (qualifies total 100) = [e]) :
    sweep modes total 10 = [e] := by
  rw [show (10 : Nat) = 9 + 1 from rfl, sweep,
    show (90 + (9 + 1) : Nat) = 100 from rfl, h]
  rfl

set_option maxRecDepth 8192 in
/-- The candidate characters form a duplicate-free list. -/
lemma asciiChars_nodup : asciiChars.Nodup := by decide

/-- C5 counterexample: every line of `"a,b|c,d\ne,f|g,h"` contains the pipe
exactly once, so the sample uses `|` consistently — yet the detector
returns `,`, because the comma is also consistent (twice per line) and
`Sniffer` resolves multiple candidates by its preference list, on which
`','` precedes `'|'`. -/
theorem detect_delimiter_claim_counterexample :
    usesConsistently "a,b|c,d\ne,f|g,h" '|' = true ∧
      detect_delimiter "a,b|c,d\ne,f|g,h" = ',' := by
  constructor
  · decide
  · decide

/-- C5 amended: for a quote-free sample whose non-empty lines all contain
the delimiter `d ∈ {;, tab, |, ,}` the same positive number of times, the
detector returns exactly `d` *provided* no other ASCII character also has a
near-consistent occurrence count on the analyzed chunk (otherwise
`Sniffer`'s preference list decides among the consistent candidates); and
for a sample in which no candidate is consistent at all, `sniff` raises
`csv.Error` and the detector falls back to `','` (witnessed by
`"abc\ndef"`). -/
theorem detect_delimiter_unique_consistent (sample : String) (d : Char)
    (hd : d ∈ [';', '\t', '|', ','])
    (hq : noQuoteChars sample = true)
    (hcons : usesConsistently sample d = true)
    (huniq : ((modesFor (firstChunk sample)).all
        (fun m => m.ch == d ||
          !qualifies (firstChunk sample).length 91 m)) = true) :
    detect_delimiter sample = d ∧ detect_delimiter "abc\ndef" = ',' := by
  refine ⟨?_, by decide⟩
  obtain ⟨l, rest, hdata⟩ : ∃ l rest, sampleLines sample = l :: rest := by
    cases h : sampleLines sample with
    | nil =>
      unfold usesConsistently at hcons
      rw [h] at hcons
      exact absurd hcons (by simp)
    | cons l rest => exact ⟨l, rest, rfl⟩
  have hk : 0 < l.count d ∧
      ∀ l2 ∈ rest, l2.count d = l.count d := by
    unfold usesConsistently at hcons
    rw [hdata] at hcons
    simp only [Bool.and_eq_true, decide_eq_true_eq, List.all_eq_true,
      beq_iff_eq] at hcons
    exact hcons
  have hallcount : ∀ x ∈ sampleLines sample, x.count d = l.count d := by
    rw [hdata]
    intro x hx
    rcases List.mem_cons.mp hx with rfl | hx
    · rfl
    · exact hk.2 x hx
  have hlenpos : 0 < (sampleLines sample).length := by
    rw [hdata]
    simp
  have hseenlen : (firstChunk sample).length = min 10 (sampleLines sample).length := by
    unfold firstChunk
    rw [List.length_take]
    omega
  have hseenne : firstChunk sample ≠ [] := by
    intro h
    rw [h] at hseenlen
    simp at hseenlen
    omega
  have hallseen : ∀ x ∈ firstChunk sample, x.count d = l.count d :=
    fun x hx => hallcount x (List.take_subset _ _ hx)
  have hmode : modeOf (firstChunk sample) d =
      some ⟨d, l.count d, ((firstChunk sample).length : Int)⟩ :=
    modeOf_const hseenne hk.1 hallseen
  have hqe : qualifies (firstChunk sample).length 100
      ⟨d, l.count d, ((firstChunk sample).length : Int)⟩ = true := by
    unfold qualifies
    simp only [Bool.and_eq_true, decide_eq_true_eq]
    have hpos : 0 < (firstChunk sample).length := List.length_pos.mpr hseenne
    exact ⟨⟨hk.1, by exact_mod_cast hpos⟩, le_refl _⟩
  have hdA : d ∈ asciiChars := by
    simp only [List.mem_cons, List.not_mem_nil, or_false] at hd
    rcases hd with rfl | rfl | rfl | rfl <;> decide
  have hother : ∀ a ∈ asciiChars, a ≠ d → ∀ e',
      modeOf (firstChunk sample) a = some e' →
      qualifies (firstChunk sample).length 100 e' = false := by
    intro a ha hne e' hme
    have hmem : e' ∈ modesFor (firstChunk sample) :=
      List.mem_filterMap.mpr ⟨a, ha, hme⟩
    have hall := List.all_eq_true.mp huniq e' hmem
    rw [modeOf_ch hme] at hall
    have h91 : qualifies (firstChunk sample).length 91 e' = false := by
      simp only [Bool.or_eq_true, beq_iff_eq] at hall
      rcases hall with h | h
      · exact absurd h hne
      · simpa using h
    cases h100 : qualifies (firstChunk sample).length 100 e' with
    | false => rfl
    | true => exact absurd (qualifies_91_of_100 h100) (by simp [h91])
  have hfilter : (modesFor (firstChunk sample)).filter
      (qualifies (firstChunk sample).length 100) =
      [⟨d, l.count d, ((firstChunk sample).length : Int)⟩] :=
    filter_filterMap_singleton asciiChars_nodup hdA hmode hqe hother
  have hsweep := sweep_of_filter_best hfilter
  have htake : (sampleLines sample).take (min 10 (sampleLines sample).length) =
      firstChunk sample := rfl
  have htot : min (min 10 (sampleLines sample).length) (sampleLines sample).length =
      (firstChunk sample).length := by
    rw [hseenlen]
    omega
  have hloop : guessLoop (sampleLines sample) (min 10 (sampleLines sample).length)
      ((sampleLines sample).length + 1) 0 [] = some d := by
    rw [guessLoop]
    rw [if_pos hlenpos]
    simp only [Nat.zero_add, List.isEmpty_nil, if_true]
    rw [htake, htot, hsweep]
  unfold detect_delimiter guess_delimiter
  rw [hloop]

/-- Witness for C5 (amended) at the semicolon sample `"a;b\nc;d"`. -/
theorem detect_delimiter_unique_consistent_witness :
    (';' ∈ ([';', '\t', '|', ','] : List Char)) ∧
      noQuoteChars "a;b\nc;d" = true ∧
      usesConsistently "a;b\nc;d" ';' = true ∧
      ((modesFor (firstChunk "a;b\nc;d")).all
        (fun m => m.ch == ';' ||
          !qualifies (firstChunk "a;b\nc;d").length 91 m)) = true ∧
      (detect_delimiter "a;b\nc;d" = ';' ∧ detect_delimiter "abc\ndef" = ',') :=
  ⟨by decide, by decide, by decide, by decide,
    detect_delimiter_unique_consistent "a;b\nc;d" ';' (by decide) (by decide)
      (by decide) (by decide)⟩

end Eda
